import Mathlib

/-!
Verification of the Conversation Lifecycle Controller of the voice-assistant
repository.  The controller is the strict-confirmation state machine in the
second script of `src/unnamed/part_000` (the FSM version, lines 397-967):
confirmation state machine, intent classifier, autosave scheduler,
persistence handshake and the finalize paths.

Modelling conventions (shallow embedding):
* Wall-clock instants (`Date.now()`) are explicit `Nat` parameters measured in
  milliseconds; signed arithmetic from the script is done in `Int` where the
  sign can matter.
* Network calls (`fetch` of `/save-conversation/`) are resolved by an oracle
  parameter of type `FetchResp`: `none` models the promise rejecting
  (a thrown network error), `some (ok, idOpt)` models an HTTP response with
  `res.ok = ok` whose JSON body carries the numeric `id` field `idOpt`.
* Timers (`setTimeout` handles) are modelled as armed/not-armed booleans; a
  timer firing is an explicit event.
* JS `toLowerCase` is modelled on the ASCII range (`jsLowerChar`), which
  agrees with JS on every ASCII input; JS `trim` and the `\s` class are
  modelled by `Char.isWhitespace`; the Unicode letter class `\p{L}` is
  modelled by `Char.isAlpha`.  The token tables of the script are ASCII
  except for some negative tokens, which are only used via substring search,
  where case mapping is not applied to them.
* String indices (`indexOf`, `slice`) count code points rather than UTF-16
  code units; the two agree on all inputs without astral-plane characters.
-/

namespace VA

/-- Single ASCII apostrophe, used to build the token strings of the script. -/
def SQ : String := String.mk [Char.ofNat 39]

/-- Opening curly brace character (written via its code point). -/
def lbrace : Char := Char.ofNat 123

/-- Closing curly brace character (written via its code point). -/
def rbrace : Char := Char.ofNat 125

/-- JS `String.prototype.toLowerCase`, restricted to the ASCII letters. -/
def jsLowerChar : Char → Char
  | 'A' => 'a' | 'B' => 'b' | 'C' => 'c' | 'D' => 'd' | 'E' => 'e'
  | 'F' => 'f' | 'G' => 'g' | 'H' => 'h' | 'I' => 'i' | 'J' => 'j'
  | 'K' => 'k' | 'L' => 'l' | 'M' => 'm' | 'N' => 'n' | 'O' => 'o'
  | 'P' => 'p' | 'Q' => 'q' | 'R' => 'r' | 'S' => 's' | 'T' => 't'
  | 'U' => 'u' | 'V' => 'v' | 'W' => 'w' | 'X' => 'x' | 'Y' => 'y'
  | 'Z' => 'z'
  | c => c

/-- Lowercasing of a whole string (JS `s.toLowerCase()`). -/
def jsToLower (s : String) : String := String.mk (s.data.map jsLowerChar)

/-- Trim whitespace from both ends of a character list (JS `s.trim()`). -/
def jsTrimList (l : List Char) : List Char :=
  ((l.dropWhile Char.isWhitespace).reverse.dropWhile Char.isWhitespace).reverse

/-- JS `s.trim()` on strings. -/
def jsTrim (s : String) : String := String.mk (jsTrimList s.data)

/-- Substring occurrence test on character lists
(`hay.indexOf(needle) !== -1`). -/
def containsSub : List Char → List Char → Bool
  | needle, [] => needle.isEmpty
  | needle, c :: t => needle.isPrefixOf (c :: t) || containsSub needle t

/-- JS `hay.indexOf(needle) !== -1` on strings. -/
def strContains (hay needle : String) : Bool := containsSub needle.data hay.data

/-- JS regex word character class `\w` = `[A-Za-z0-9_]`. -/
def isWordChar (c : Char) : Bool := c.isAlphanum || c = '_'

/-- Unicode letter class `\p{L}` of the normalizer (modelled on ASCII). -/
def isLetterChar (c : Char) : Bool := c.isAlpha

/-- Map every non-letter character to a space
(first half of `replace(/[^\p{L}]+/gu, " ")`: the char-wise substitution). -/
def toSpaces (l : List Char) : List Char :=
  l.map (fun c => if isLetterChar c then c else ' ')

/-- Collapse runs of spaces to a single space (the `+` of the regex above);
the boolean records whether the previously emitted character was a space. -/
def squeezeSpaces : Bool → List Char → List Char
  | _, [] => []
  | prevSpace, c :: t =>
    if c = ' ' then
      if prevSpace then squeezeSpaces true t else ' ' :: squeezeSpaces true t
    else c :: squeezeSpaces false t

/-- Model of `normalizeLetters` of the script: lowercase, replace every maximal run of
non-letters by a single space, trim. -/
def normalizeLetters (s : String) : String :=
  jsTrim (String.mk (squeezeSpaces false (toSpaces (jsToLower s).data)))

/-- Removal of all whitespace (`replace(/\s+/g, "")`). -/
def removeSpaces (s : String) : String :=
  String.mk (s.data.filter (fun c => !c.isWhitespace))

/-- One position of the word-boundary regex match: the token occurs here as a
literal prefix and is followed by the end of the string or a non-word
character (the `(?:\b|$)` part; every token ends in a word character). -/
def matchHere (tok rest : List Char) : Bool :=
  tok.isPrefixOf rest &&
    (match rest.drop tok.length with
     | [] => true
     | c :: _ => !isWordChar c)

/-- Scan of the regex `(?:^|\b)tok(?:\b|$)` over a character list.  `prevOk`
records whether a match may start at the current position: at the start of
the string, or right after a non-word character (every token starts with a
word character, so `\b` there means exactly that). -/
def wbSearch (tok : List Char) : Bool → List Char → Bool
  | _, [] => false
  | prevOk, c :: t => (prevOk && matchHere tok (c :: t)) || wbSearch tok (!isWordChar c) t

/-- Test of the anchored word-boundary regex the script builds for each long
affirmative token against the lowercased reply. -/
def wordBoundaryMatch (tok lc : String) : Bool := wbSearch tok.data true lc.data

/-- Model of `YES_LONG_TOKENS` of the script. -/
def YES_LONG_TOKENS : List String :=
  ["yes", "yeah", "yep", "yup", "confirm", "please end", "go ahead",
   "that" ++ SQ ++ "s fine", "that is fine", "end now", "sure", "okay end",
   "ok end", "please close", "end it", "yes please", "affirmative", "indeed"]

/-- Model of `NO_TOKENS` of the script (the last entries are "no" in several
languages, kept verbatim). -/
def NO_TOKENS : List String :=
  ["no", "not yet", "wait", "hold on", "continue", "don" ++ SQ ++ "t",
   "do not", "nope", "cancel", "not now", "stop asking", "no thanks",
   "no thank you", "nah", "never", "please continue", "keep going",
   "no i don" ++ SQ ++ "t", "no i do not",
   "لا", "нет", "nein", "இல்லை", "లేదు", "नहीं", "não", "non", "ne", "nej", "nai"]

/-- Model of `SHORT_YES` of the script. -/
def SHORT_YES : List String := ["s", "y", "ok", "okay"]

/-- Model of `STOP_TOKENS` of the script (the second "done" entry uses the curly
apostrophe of the source). -/
def STOP_TOKENS : List String :=
  ["stop", "end", "finish", "we are done", "we’re done",
   "that" ++ SQ ++ "s all", "thats all", "end the conversation", "stop this",
   "stop now", "bye", "goodbye"]

/-- Model of `isNegativeTurn` of the script: some negative token is a substring of the
lowercased text. -/
def isNegativeTurn (text : String) : Bool :=
  let lc := jsToLower text
  NO_TOKENS.any (fun tok => strContains lc tok)

/-- Model of `isAffirmativeTurn` of the script: negative takes precedence; then either
the letters-only normalization is a short affirmative token of length at most
four, or some long affirmative token matches at word boundaries. -/
def isAffirmativeTurn (text : String) : Bool :=
  let raw := text
  let lc := jsTrim (jsToLower raw)
  if isNegativeTurn lc then false
  else
    let lettersOnly := removeSpaces (normalizeLetters lc)
    if lettersOnly.length ≤ 4 && SHORT_YES.contains lettersOnly then true
    else YES_LONG_TOKENS.any (fun tok => wordBoundaryMatch tok lc)

/-- Model of `isStopIntent` of the script: some stop token is a substring of the
lowercased text. -/
def isStopIntent (text : String) : Bool :=
  let lc := jsToLower text
  STOP_TOKENS.any (fun tok => strContains lc tok)

/-! JSON values and a parser modelling `JSON.parse` (which the script wraps
in try/catch); parse failure is `none`, never an exception. -/

/-- JSON values.  Numbers keep their source lexeme: the script never reads a
numeric field out of tool-call arguments, so no numeric semantics is
needed. -/
inductive Json where
  | null
  | bool (b : Bool)
  | num (lit : String)
  | str (s : String)
  | arr (elems : List Json)
  | obj (fields : List (String × Json))
deriving Inhabited

/-- JSON whitespace. -/
def isJsonWs (c : Char) : Bool := c = ' ' || c = '\t' || c = '\n' || c = '\r'

/-- Skip JSON whitespace. -/
def skipWs (l : List Char) : List Char := l.dropWhile isJsonWs

/-- Hexadecimal digit test. -/
def isHexDigitChar (c : Char) : Bool :=
  c.isDigit || ('a' ≤ c && c ≤ 'f') || ('A' ≤ c && c ≤ 'F')

/-- Value of a hexadecimal digit. -/
def hexVal (c : Char) : Nat :=
  if c.isDigit then c.toNat - 48
  else if 'a' ≤ c && c ≤ 'f' then c.toNat - 87
  else c.toNat - 55

/-- Parse the body of a JSON string after the opening quote; returns the
decoded content and the rest of the input. -/
def parseStringBody : Nat → List Char → Option (List Char × List Char)
  | 0, _ => none
  | _, [] => none
  | fuel + 1, c :: t =>
    if c = '"' then some ([], t)
    else if c = '\\' then
      match t with
      | [] => none
      | e :: t2 =>
        if e = '"' then (parseStringBody fuel t2).map (fun p => ('"' :: p.1, p.2))
        else if e = '\\' then (parseStringBody fuel t2).map (fun p => ('\\' :: p.1, p.2))
        else if e = '/' then (parseStringBody fuel t2).map (fun p => ('/' :: p.1, p.2))
        else if e = 'b' then (parseStringBody fuel t2).map (fun p => (Char.ofNat 8 :: p.1, p.2))
        else if e = 'f' then (parseStringBody fuel t2).map (fun p => (Char.ofNat 12 :: p.1, p.2))
        else if e = 'n' then (parseStringBody fuel t2).map (fun p => ('\n' :: p.1, p.2))
        else if e = 'r' then (parseStringBody fuel t2).map (fun p => ('\r' :: p.1, p.2))
        else if e = 't' then (parseStringBody fuel t2).map (fun p => ('\t' :: p.1, p.2))
        else if e = 'u' then
          match t2 with
          | a :: b :: c2 :: d :: t3 =>
            if isHexDigitChar a && isHexDigitChar b && isHexDigitChar c2 && isHexDigitChar d then
              let n := hexVal a * 4096 + hexVal b * 256 + hexVal c2 * 16 + hexVal d
              (parseStringBody fuel t3).map (fun p => (Char.ofNat n :: p.1, p.2))
            else none
          | _ => none
        else none
    else if c.toNat < 32 then none
    else (parseStringBody fuel t).map (fun p => (c :: p.1, p.2))

/-- Parse a JSON number literal, keeping the lexeme. -/
def parseNumberLit (l : List Char) : Option (String × List Char) :=
  let (sign, l1) := match l with
    | '-' :: t => (['-'], t)
    | _ => (([] : List Char), l)
  let intPart := l1.takeWhile Char.isDigit
  if intPart.isEmpty then none
  else
    let l2 := l1.drop intPart.length
    let (fracPart, l3) := match l2 with
      | '.' :: t =>
        let ds := t.takeWhile Char.isDigit
        if ds.isEmpty then (([] : List Char), l2) else ('.' :: ds, t.drop ds.length)
      | _ => (([] : List Char), l2)
    if l2 ≠ l3 ∨ fracPart.isEmpty then
      let (expPart, l4) := match l3 with
        | e :: t =>
          if e = 'e' ∨ e = 'E' then
            let (sg, t2) := match t with
              | s :: t2 => if s = '+' ∨ s = '-' then ([s], t2) else (([] : List Char), t)
              | [] => (([] : List Char), t)
            let ds := t2.takeWhile Char.isDigit
            if ds.isEmpty then (([] : List Char), l3) else (e :: (sg ++ ds), t2.drop ds.length)
          else (([] : List Char), l3)
        | [] => (([] : List Char), l3)
      some (String.mk (sign ++ intPart ++ fracPart ++ expPart), l4)
    else none

mutual

/-- Parse one JSON value (fuel-indexed recursion). -/
def parseVal : Nat → List Char → Option (Json × List Char)
  | 0, _ => none
  | fuel + 1, l =>
    match skipWs l with
    | [] => none
    | c :: t =>
      if c = lbrace then
        match skipWs t with
        | d :: t2 =>
          if d = rbrace then some (Json.obj [], t2)
          else parseMembers fuel (d :: t2) []
        | [] => none
      else if c = '[' then
        match skipWs t with
        | ']' :: t2 => some (Json.arr [], t2)
        | rest => parseElems fuel rest []
      else if c = '"' then
        (parseStringBody (t.length + 1) t).map (fun p => (Json.str (String.mk p.1), p.2))
      else if c = 't' then
        match t with
        | 'r' :: 'u' :: 'e' :: t2 => some (Json.bool true, t2)
        | _ => none
      else if c = 'f' then
        match t with
        | 'a' :: 'l' :: 's' :: 'e' :: t2 => some (Json.bool false, t2)
        | _ => none
      else if c = 'n' then
        match t with
        | 'u' :: 'l' :: 'l' :: t2 => some (Json.null, t2)
        | _ => none
      else
        (parseNumberLit (c :: t)).map (fun p => (Json.num p.1, p.2))

/-- Parse the members of a JSON object after the opening brace. -/
def parseMembers : Nat → List Char → List (String × Json) → Option (Json × List Char)
  | 0, _, _ => none
  | fuel + 1, l, acc =>
    match skipWs l with
    | '"' :: t =>
      match parseStringBody (t.length + 1) t with
      | none => none
      | some (key, rest) =>
        match skipWs rest with
        | ':' :: rest2 =>
          match parseVal fuel rest2 with
          | none => none
          | some (v, rest3) =>
            let acc := acc ++ [(String.mk key, v)]
            match skipWs rest3 with
            | ',' :: rest4 => parseMembers fuel rest4 acc
            | d :: rest4 => if d = rbrace then some (Json.obj acc, rest4) else none
            | [] => none
        | _ => none
    | _ => none

/-- Parse the elements of a JSON array after the opening bracket. -/
def parseElems : Nat → List Char → List Json → Option (Json × List Char)
  | 0, _, _ => none
  | fuel + 1, l, acc =>
    match parseVal fuel l with
    | none => none
    | some (v, rest) =>
      let acc := acc ++ [v]
      match skipWs rest with
      | ',' :: rest2 => parseElems fuel rest2 acc
      | ']' :: rest2 => some (Json.arr acc, rest2)
      | _ => none

end

/-- Model of `JSON.parse` model: parse one value and require only trailing whitespace
after it; `none` models the thrown `SyntaxError` that the script catches. -/
def jsonParse (s : String) : Option Json :=
  match parseVal (2 * s.data.length + 2) s.data with
  | some (v, rest) => if skipWs rest = [] then some v else none
  | none => none

/-- Scan for the first occurrence of a character, tracking the index. -/
def idxOfGo (c : Char) : List Char → Int → Int
  | [], _ => -1
  | x :: t, i => if x = c then i else idxOfGo c t (i + 1)

/-- JS `s.indexOf(c)`: index of the first occurrence, or `-1`. -/
def jsIndexOfChar (s : String) (c : Char) : Int :=
  idxOfGo c s.data 0

/-- Scan for the last occurrence of a character, tracking the best index. -/
def lastIdxOfGo (c : Char) : List Char → Int → Int → Int
  | [], _, best => best
  | x :: t, i, best => lastIdxOfGo c t (i + 1) (if x = c then i else best)

/-- JS `s.lastIndexOf(c)`: index of the last occurrence, or `-1`. -/
def jsLastIndexOfChar (s : String) (c : Char) : Int :=
  lastIdxOfGo c s.data 0 (-1)

/-- JS `s.slice(a, b)` for `0 ≤ a ≤ b` (the only use in the script). -/
def jsSliceStr (s : String) (a b : Nat) : String :=
  String.mk ((s.data.take b).drop a)

/-- Best-effort extraction of the script: slice from the first opening brace
to the last closing brace when both exist in that order, otherwise keep the
buffer unchanged. -/
def bestEffortSlice (buf : String) : String :=
  let s := jsIndexOfChar buf lbrace
  let e := jsLastIndexOfChar buf rbrace
  if s ≠ -1 ∧ e > s then jsSliceStr buf s.toNat (e.toNat + 1) else buf

/-- Argument recovery of `handleFunctionCallEvent`: parse the best-effort
slice; on failure the arguments are the empty object. -/
def parseFnArgs (buf : String) : Json :=
  match jsonParse (bestEffortSlice buf) with
  | some v => v
  | none => Json.obj []

/-- Field lookup in a JSON object (property access on the parsed value). -/
def jsonGetField (j : Json) (k : String) : Option Json :=
  match j with
  | Json.obj fs => (fs.find? (fun p => p.1 = k)).map (fun p => p.2)
  | _ => none

/-- Model of `!!(args && args.confirmed === true)` of the script. -/
def argsConfirmed (args : Json) : Bool :=
  match jsonGetField args "confirmed" with
  | some (Json.bool true) => true
  | _ => false

/-- Model of `(args && typeof args.reason === "string" && args.reason) ? args.reason
: "user ended"` of the script. -/
def argsReason (args : Json) : String :=
  match jsonGetField args "reason" with
  | some (Json.str s) => if s = "" then "user ended" else s
  | _ => "user ended"

/-! The controller state and its operations. -/

/-- Model of `convoState` values: `"active" | "pending_confirm" | "ended"`. -/
inductive ConvoState where
  | active
  | pendingConfirm
  | ended
deriving Repr, DecidableEq, Inhabited

/-- Outcome of one `fetch("/save-conversation/")`: `none` is a rejected
promise (network error); `some (ok, idOpt)` is a response with `res.ok = ok`
whose parsed JSON body has numeric field `id = idOpt` (or no usable body). -/
abbrev FetchResp := Option (Bool × Option Int)

/-- The payload the script posts to `/save-conversation/` (the `SaveRequest`
value object). -/
structure SaveRequest where
  session_id : String
  user_text : String
  ai_text : String
  autosave : Bool
  reason : String
  close : Bool
  finalize : Bool
  confirmed : Bool
  conversation_id : Option Int
deriving Repr, DecidableEq, Inhabited

/-- The `options` argument of `saveConversation`. -/
structure SaveOptions where
  autosave : Bool
  reason : String
  close : Bool
  finalize : Bool
  confirmed : Bool
deriving Repr, DecidableEq, Inhabited

/-- All mutable module state of the FSM script that the modelled operations
read or write.  Timer handles are armed/not-armed booleans; `dcOpen` is
whether the events data channel is open (`eventsDC.readyState === "open"`). -/
structure CtrlState where
  sessionId : String
  conversationId : Option Int
  userText : String
  aiText : String
  currentUserTurn : String
  dirty : Bool
  autosaveTimerArmed : Bool
  lastSnapshot : String
  lastSaveAt : Nat
  saving : Bool
  finalized : Bool
  greetingPending : Bool
  greetArmed : Bool
  convoState : ConvoState
  confirmationRequested : Bool
  confirmationAskedAt : Nat
  confirmationGranted : Bool
  turnIndex : Int
  confirmAskedTurnIndex : Int
  lastUserTurnIndex : Int
  finalizeFallbackArmed : Bool
  rejectFinalizeUntilTs : Nat
  lastStopIntentTs : Nat
  fnArgBuffers : List (String × String)
  dcOpen : Bool
  stopPendingArmed : Bool
deriving Repr, DecidableEq, Inhabited

/-- State right after `start()` succeeded: every flag and timer reset, the
turn-guard indices at `-1`, conversation state `active`, data channel open. -/
def initState : CtrlState where
  sessionId := ""
  conversationId := none
  userText := ""
  aiText := ""
  currentUserTurn := ""
  dirty := false
  autosaveTimerArmed := false
  lastSnapshot := ""
  lastSaveAt := 0
  saving := false
  finalized := false
  greetingPending := false
  greetArmed := false
  convoState := ConvoState.active
  confirmationRequested := false
  confirmationAskedAt := 0
  confirmationGranted := false
  turnIndex := 0
  confirmAskedTurnIndex := -1
  lastUserTurnIndex := -1
  finalizeFallbackArmed := false
  rejectFinalizeUntilTs := 0
  lastStopIntentTs := 0
  fnArgBuffers := []
  dcOpen := true
  stopPendingArmed := false

/-- Model of `AUTO_SAVE_IDLE_MS` of the script. -/
def AUTO_SAVE_IDLE_MS : Nat := 8000

/-- Model of `MIN_SAVE_INTERVAL_MS` of the script. -/
def MIN_SAVE_INTERVAL_MS : Nat := 10000

/-- Model of `CONFIRM_WINDOW_MS` of the script. -/
def CONFIRM_WINDOW_MS : Nat := 90 * 1000

/-- Model of `STOP_INTENT_WINDOW_MS` of the script. -/
def STOP_INTENT_WINDOW_MS : Nat := 20000

/-- Model of `FINALIZE_FALLBACK_MS` of the script. -/
def FINALIZE_FALLBACK_MS : Nat := 1800

/-- Model of `STOP_AFTER_CLOSE_MS` of the script. -/
def STOP_AFTER_CLOSE_MS : Nat := 1200

/-- Closing message text sent by `sendClosingMessage`. -/
def CLOSING_TEXT : String :=
  "Thank you for your patience and for using our service. Have a great day!"

/-- Instruction text sent by `sendContinueInstruction`. -/
def CONTINUE_TEXT : String :=
  "The user did not confirm ending. Continue assisting. Do NOT call finalize_conversation again unless the user explicitly confirms in their next turn. Always respond only in English."

/-- Model of `currentSnapshot()` of the script. -/
def currentSnapshot (st : CtrlState) : String :=
  st.userText ++ "\n----\n" ++ st.aiText

/-- Model of `markDirty()` of the script: while not finalized, set the dirty flag and
(re)arm the autosave debounce timer. -/
def markDirty (st : CtrlState) : CtrlState :=
  if !st.finalized then { st with dirty := true, autosaveTimerArmed := true } else st

/-- Model of `scheduleAutoSave(delay)` of the script, as its effect on the timer state
(cancel the previous debounce timer and arm a new one). -/
def scheduleAutoSave (st : CtrlState) : CtrlState :=
  { st with autosaveTimerArmed := true }

/-- Model of `cancelFinalizeFallback()` of the script. -/
def cancelFinalizeFallback (st : CtrlState) : CtrlState :=
  { st with finalizeFallbackArmed := false }

/-- Model of `sendContinueInstruction()`: the instruction goes out only while the data
channel is open (otherwise the function returns without sending). -/
def sendContinueInstruction (st : CtrlState) : List String :=
  if st.dcOpen then [CONTINUE_TEXT] else []

/-- Model of `aiTextSanitized` of the script (identity placeholder hook). -/
def aiTextSanitized (t : String) : String := t

/-- Result of one `saveConversation` call: the updated state, the request
actually posted over the network (`none` when the call was skipped by a
guard), and the `ok` field of the returned object. -/
structure SaveOutcome where
  st : CtrlState
  req : Option SaveRequest
  ok : Bool
deriving Repr, DecidableEq

/-- The `payload` object `saveConversation` builds from the state and its
options. -/
def savePayload (st : CtrlState) (opts : SaveOptions) : SaveRequest :=
  { session_id := st.sessionId
    user_text := st.userText
    ai_text := aiTextSanitized st.aiText
    autosave := opts.autosave
    reason := if opts.reason = "" then (if opts.autosave then "autosave" else "manual") else opts.reason
    close := opts.close
    finalize := opts.finalize
    confirmed := opts.confirmed
    conversation_id := st.conversationId }

/-- Model of `saveConversation(options)` of the script.  `nowTs` is the `Date.now()`
read by the throttle guard, `doneTs` the one stored into `lastSaveAt` after a
successful response; `resp` resolves the fetch. -/
def saveConversation (st : CtrlState) (opts : SaveOptions) (nowTs doneTs : Nat)
    (resp : FetchResp) : SaveOutcome :=
  let payload : SaveRequest := savePayload st opts
  let snap := currentSnapshot st
  if jsTrim snap = "" then { st := st, req := none, ok := true }
  else
    let isFinalize := opts.finalize
    if st.saving && !isFinalize then { st := st, req := none, ok := false }
    else if !isFinalize && opts.autosave && ((nowTs : Int) - (st.lastSaveAt : Int) < (MIN_SAVE_INTERVAL_MS : Int)) then
      { st := st, req := none, ok := true }
    else
      match resp with
      | none => { st := { st with saving := false }, req := some payload, ok := false }
      | some (ok, idOpt) =>
        if ok then
          let st' := { st with
            conversationId := match idOpt with | some i => some i | none => st.conversationId
            lastSnapshot := snap
            lastSaveAt := doneTs
            dirty := false
            saving := false }
          { st := st', req := some payload, ok := true }
        else { st := { st with saving := false }, req := some payload, ok := false }

/-- Model of `tryAutoSave(reason)` of the script: no-op unless dirty, otherwise a
non-finalize autosave. -/
def tryAutoSave (st : CtrlState) (reason : String) (nowTs doneTs : Nat)
    (resp : FetchResp) : SaveOutcome :=
  if !st.dirty then { st := st, req := none, ok := true }
  else saveConversation st
    { autosave := true
      reason := if reason = "" then "autosave" else reason
      finalize := false, confirmed := false, close := false } nowTs doneTs resp

/-- Model of `hasFinalizePermission()` of the script: the classic path (question asked,
within the 90 s window, the user replied after the question, and granted) or
the fallback path (stop intent within 20 s, granted, and not in lockout). -/
def hasFinalizePermission (st : CtrlState) (now : Nat) : Bool :=
  let classic := st.confirmationRequested
    && decide ((now : Int) - (st.confirmationAskedAt : Int) ≤ (CONFIRM_WINDOW_MS : Int))
    && decide (st.lastUserTurnIndex > st.confirmAskedTurnIndex)
    && st.confirmationGranted
  let recentStop := decide ((now : Int) - (st.lastStopIntentTs : Int) ≤ (STOP_INTENT_WINDOW_MS : Int))
  let fallback := recentStop && st.confirmationGranted && decide (now ≥ st.rejectFinalizeUntilTs)
  classic || fallback

/-- Result of an event-handler run: the new state, the save requests that
went out over the network, and the instruction texts sent to the model. -/
structure StepOut where
  st : CtrlState
  saves : List SaveRequest
  instrs : List String
deriving Repr, DecidableEq

/-- Options of the phase-1 save issued by `stop` (`reason: "manual_stop"`,
non-final). -/
def stopPhase1Opts : SaveOptions :=
  { autosave := true, reason := "manual_stop"
    finalize := false, confirmed := false, close := false }

/-- Options of the phase-2 forced finalize issued by `stop`
(`finalize: true, confirmed: true, close: true`). -/
def stopPhase2Opts : SaveOptions :=
  { autosave := true, reason := "manual_stop_finalize"
    finalize := true, confirmed := true, close := true }

/-- Cleanup tail of `stop`: cancel every timer, reset the lockout and
stop-intent stamps and drop the transport handles. -/
def stopCleanup (st : CtrlState) : CtrlState :=
  { st with
    autosaveTimerArmed := false
    greetArmed := false
    finalizeFallbackArmed := false
    rejectFinalizeUntilTs := 0
    lastStopIntentTs := 0
    dcOpen := false }

/-- Model of `stop(options)` of the script: when saving is not skipped, phase 1 posts
a non-final snapshot, and only if the session is not finalized and phase 1
reported ok does phase 2 post the forced finalize (latching `finalized` and
`ended` on its success); then all timers are cancelled and the lockout and
stop-intent stamps reset. -/
def stop (st : CtrlState) (skipSave : Bool) (t1 d1 t2 d2 : Nat)
    (resp1 resp2 : FetchResp) : StepOut :=
  let (st1, saves) :=
    if skipSave then (st, ([] : List SaveRequest))
    else
      let o1 := saveConversation st stopPhase1Opts t1 d1 resp1
      let stA := o1.st
      if !stA.finalized && o1.ok then
        let o2 := saveConversation stA stopPhase2Opts t2 d2 resp2
        let stB := o2.st
        let stC := if o2.ok then { stB with finalized := true, convoState := ConvoState.ended } else stB
        (stC, o1.req.toList ++ o2.req.toList)
      else (stA, o1.req.toList)
  { st := stopCleanup st1, saves := saves, instrs := [] }

/-- Model of `finalizeClientSide(reason)` of the script (the fallback-timer body):
re-check permission; on success post the finalize save and either latch
`ended` (sending the closing message and arming the forced stop) or revert on
failure. -/
def finalizeClientSide (st : CtrlState) (reason : String) (nowTs doneTs : Nat)
    (resp : FetchResp) : StepOut :=
  if !hasFinalizePermission st nowTs then
    { st := { st with convoState := ConvoState.active }, saves := [], instrs := [] }
  else
    let st1 := { st with finalized := true }
    let o := saveConversation st1
      { autosave := true
        reason := if reason = "" then "user confirmed end" else reason
        finalize := true, confirmed := true, close := true } nowTs doneTs resp
    let st2 := o.st
    if !o.ok then
      let st3 := { st2 with finalized := false, convoState := ConvoState.active }
      { st := st3, saves := o.req.toList, instrs := sendContinueInstruction st3 }
    else
      let st3 := { st2 with convoState := ConvoState.ended, stopPendingArmed := true }
      let sent := st3.dcOpen
      if !sent then
        let out := stop st3 true 0 0 0 0 none none
        { st := out.st, saves := o.req.toList ++ out.saves, instrs := [] }
      else { st := st3, saves := o.req.toList, instrs := [CLOSING_TEXT] }

/-- Model of `maybeMarkConfirmationRequested(text)` of the script: a confirmation
question is an assistant fragment containing an "are you sure" phrase, an end
synonym and a session noun simultaneously. -/
def maybeMarkConfirmationRequested (st : CtrlState) (now : Nat) (text : String) : CtrlState :=
  if text = "" then st
  else
    let lc := jsToLower text
    if strContains lc "are you sure"
        && (strContains lc "end" || strContains lc "finish" || strContains lc "close")
        && (strContains lc "conversation" || strContains lc "session" || strContains lc "call") then
      { st with
        confirmationRequested := true
        confirmationGranted := false
        confirmationAskedAt := now
        confirmAskedTurnIndex := st.turnIndex
        convoState := ConvoState.pendingConfirm }
    else st

/-- Model of `maybeEvaluateUserConfirmation(turnText)` of the script: track stop
intent; bail out when there is neither a pending confirmation nor a new stop
intent; a negative reply clears the grant, sets the 6 s lockout, cancels the
fallback timer and returns to `active`; an affirmative reply grants and arms
the fallback timer; anything else changes nothing. -/
def maybeEvaluateUserConfirmation (st : CtrlState) (now : Nat) (turnText : String) :
    CtrlState × List String :=
  if turnText = "" then (st, [])
  else
    let st0 := if isStopIntent turnText then { st with lastStopIntentTs := now } else st
    if !st0.confirmationRequested && !isStopIntent turnText then (st0, [])
    else if isNegativeTurn turnText then
      let st1 := { st0 with
        confirmationGranted := false
        confirmationRequested := false
        finalizeFallbackArmed := false
        rejectFinalizeUntilTs := now + 6000
        convoState := ConvoState.active }
      (st1, sendContinueInstruction st1)
    else if isAffirmativeTurn turnText then
      ({ st0 with confirmationGranted := true, finalizeFallbackArmed := true }, [])
    else (st0, [])

/-- Buffer lookup (`fnArgBuffers[id] || ""`). -/
def bufGet (bufs : List (String × String)) (id : String) : String :=
  match bufs.find? (fun p => p.1 = id) with
  | some p => p.2
  | none => ""

/-- Buffer update (`fnArgBuffers[id] = v`). -/
def bufSet (bufs : List (String × String)) (id v : String) : List (String × String) :=
  if bufs.any (fun p => p.1 = id) then
    bufs.map (fun p => if p.1 = id then (p.1, v) else p)
  else bufs ++ [(id, v)]

/-- Buffer removal (`delete fnArgBuffers[id]`). -/
def bufDel (bufs : List (String × String)) (id : String) : List (String × String) :=
  bufs.filter (fun p => p.1 ≠ id)

/-- Delta half of `handleFunctionCallEvent`: append the argument fragment to
the buffer of this call id. -/
def handleFnCallDelta (st : CtrlState) (id delta : String) : CtrlState :=
  { st with fnArgBuffers := bufSet st.fnArgBuffers id (bufGet st.fnArgBuffers id ++ delta) }

/-- Completion half of `handleFunctionCallEvent`: recover the arguments from
the buffer; for `finalize_conversation`, enforce the lockout, then the
`confirmed` flag plus `hasFinalizePermission`, and on a valid call post the
finalize save, reverting (with a continue instruction) if the server did not
acknowledge. -/
def handleFnCallDone (st : CtrlState) (id name : String) (nowTs doneTs : Nat)
    (resp : FetchResp) : StepOut :=
  let buf := bufGet st.fnArgBuffers id
  let st := { st with fnArgBuffers := bufDel st.fnArgBuffers id }
  let args := parseFnArgs buf
  if name = "finalize_conversation" then
    let reason := argsReason args
    let confirmed := argsConfirmed args
    if nowTs < st.rejectFinalizeUntilTs then
      let st := { st with convoState := ConvoState.active }
      { st := st, saves := [], instrs := sendContinueInstruction st }
    else if !(confirmed && hasFinalizePermission st nowTs) then
      let st := { st with convoState := ConvoState.active }
      { st := st, saves := [], instrs := sendContinueInstruction st }
    else
      let st := cancelFinalizeFallback st
      let st := { st with finalized := true }
      let o := saveConversation st
        { autosave := true, reason := reason
          finalize := true, confirmed := true, close := true } nowTs doneTs resp
      let st := o.st
      if !o.ok then
        let st := { st with finalized := false, convoState := ConvoState.active }
        { st := st, saves := o.req.toList, instrs := sendContinueInstruction st }
      else
        let st := { st with convoState := ConvoState.ended, stopPendingArmed := true }
        let sent := st.dcOpen
        if !sent then
          let out := stop st true 0 0 0 0 none none
          { st := out.st, saves := o.req.toList ++ out.saves, instrs := [] }
        else { st := st, saves := o.req.toList, instrs := [CLOSING_TEXT] }
  else { st := st, saves := [], instrs := [] }

/-- User transcription delta: append to the visible transcript and the
per-turn scratch buffer, then `markDirty`. -/
def onUserDelta (st : CtrlState) (text : String) : CtrlState :=
  let st := if text ≠ "" then
    { st with userText := st.userText ++ text, currentUserTurn := st.currentUserTurn ++ text }
  else st
  markDirty st

/-- User transcription completed: newline separator, bump the shared turn
counter, record the user turn index, evaluate the completed turn, clear the
scratch buffer and reschedule the autosave debounce. -/
def onUserTurnDone (st : CtrlState) (now : Nat) : CtrlState × List String :=
  let st := { st with userText := st.userText ++ "\n" }
  let st := { st with turnIndex := st.turnIndex + 1 }
  let st := { st with lastUserTurnIndex := st.turnIndex }
  let (st, instrs) := maybeEvaluateUserConfirmation st now st.currentUserTurn
  let st := { st with currentUserTurn := "" }
  (scheduleAutoSave st, instrs)

/-- Assistant text delta: append, watch for a confirmation question, then
`markDirty`. -/
def onAssistantDelta (st : CtrlState) (text : String) (now : Nat) : CtrlState :=
  let st := if text ≠ "" then
    maybeMarkConfirmationRequested { st with aiText := st.aiText ++ text } now text
  else st
  markDirty st

/-- Assistant output completed (`response.completed` or
`response.output_text.done`): while a closing greeting is pending this stops
the session instead; otherwise newline separator, bump the shared turn
counter and reschedule the autosave debounce. -/
def onAssistantTurnDone (st : CtrlState) : StepOut :=
  if st.greetingPending then
    let st := { st with greetingPending := false, greetArmed := false }
    stop st true 0 0 0 0 none none
  else
    let st := { st with aiText := st.aiText ++ "\n" }
    let st := { st with turnIndex := st.turnIndex + 1 }
    { st := scheduleAutoSave st, saves := [], instrs := [] }

/-- The request `beforeunload` posts via `sendBeacon` (FSM version: never a
finalize, never a close). -/
def beaconRequest (st : CtrlState) : SaveRequest :=
  { session_id := st.sessionId
    user_text := st.userText
    ai_text := st.aiText
    autosave := true
    reason := "beforeunload"
    close := false
    finalize := false
    confirmed := false
    conversation_id := st.conversationId }

/-- Inbound events the controller reacts to, with the oracles (wall-clock
reads and fetch outcomes) each reaction consumes. -/
inductive RtEvent where
  | userDelta (text : String)
  | userTurnDone (now : Nat)
  | assistantDelta (text : String) (now : Nat)
  | assistantTurnDone
  | fnCallDelta (id delta : String)
  | fnCallDone (id name : String) (nowTs doneTs : Nat) (resp : FetchResp)
  | fallbackTimerFire (nowTs doneTs : Nat) (resp : FetchResp)
  | autosaveTimerFire (nowTs doneTs : Nat) (resp : FetchResp)
  | autosaveEvent (reason : String) (nowTs doneTs : Nat) (resp : FetchResp)
  | stopClick (t1 d1 t2 d2 : Nat) (resp1 resp2 : FetchResp)
  | pageUnload
deriving Repr, DecidableEq

/-- One dispatch of the controller: every code path that can emit a save
request or an instruction, as routed by `handleRealtimeEvent`, the timers,
the stop button and the unload hook. -/
def step (st : CtrlState) (ev : RtEvent) : StepOut :=
  match ev with
  | RtEvent.userDelta text => { st := onUserDelta st text, saves := [], instrs := [] }
  | RtEvent.userTurnDone now =>
    let (st, instrs) := onUserTurnDone st now
    { st := st, saves := [], instrs := instrs }
  | RtEvent.assistantDelta text now =>
    { st := onAssistantDelta st text now, saves := [], instrs := [] }
  | RtEvent.assistantTurnDone => onAssistantTurnDone st
  | RtEvent.fnCallDelta id delta =>
    { st := handleFnCallDelta st id delta, saves := [], instrs := [] }
  | RtEvent.fnCallDone id name nowTs doneTs resp => handleFnCallDone st id name nowTs doneTs resp
  | RtEvent.fallbackTimerFire nowTs doneTs resp =>
    if st.finalizeFallbackArmed then
      finalizeClientSide { st with finalizeFallbackArmed := false }
        "user confirmed end (fallback)" nowTs doneTs resp
    else { st := st, saves := [], instrs := [] }
  | RtEvent.autosaveTimerFire nowTs doneTs resp =>
    if st.autosaveTimerArmed then
      let o := tryAutoSave { st with autosaveTimerArmed := false } "idle" nowTs doneTs resp
      { st := o.st, saves := o.req.toList, instrs := [] }
    else { st := st, saves := [], instrs := [] }
  | RtEvent.autosaveEvent reason nowTs doneTs resp =>
    let o := tryAutoSave st reason nowTs doneTs resp
    { st := o.st, saves := o.req.toList, instrs := [] }
  | RtEvent.stopClick t1 d1 t2 d2 resp1 resp2 => stop st false t1 d1 t2 d2 resp1 resp2
  | RtEvent.pageUnload => { st := st, saves := [beaconRequest st], instrs := [] }

/-- Fold a sequence of events through the controller, keeping the state. -/
def runEvents (st : CtrlState) (evs : List RtEvent) : CtrlState :=
  evs.foldl (fun s e => (step s e).st) st

/-! Spec-side definitions, written from the words of the specification, used
to state the classifier claim against the code definitions above. -/

/-- Spec wording for the short-affirmative branch: the normalized text with
spaces removed has length at most four and equals a short-affirmative
token. -/
def specShortAffirmative (text : String) : Bool :=
  let lettersOnly := removeSpaces (normalizeLetters text)
  decide (lettersOnly.length ≤ 4) && SHORT_YES.contains lettersOnly

/-- Spec wording for the long-affirmative branch: some long affirmative
phrase matches the lowercased raw text at word and phrase boundaries. -/
def specLongAffirmative (text : String) : Bool :=
  YES_LONG_TOKENS.any (fun tok => wordBoundaryMatch tok (jsToLower text))

/-- Shape facts about a token string used by the trim-invariance lemmas:
nonempty, and its head and last characters are not whitespace. -/
def tokGood (tok : String) : Bool :=
  match tok.data, tok.data.getLast? with
  | c :: _, some d => !c.isWhitespace && !d.isWhitespace
  | _, _ => false

/-- Shape facts about a long-affirmative token used by the word-boundary
trim-invariance lemma: nonempty, and its head and last characters are word
characters. -/
def tokWord (tok : String) : Bool :=
  match tok.data, tok.data.getLast? with
  | c :: _, some d => isWordChar c && isWordChar d
  | _, _ => false

/-! Generic lemmas about the character and list helpers. -/

/-- Two booleans agreeing as propositions are equal. -/
theorem boolEqOfIff {a b : Bool} (h : a = true ↔ b = true) : a = b := by
  cases a <;> cases b <;> simp_all

/-- ASCII lowercasing is idempotent. -/
theorem jsLowerChar_idem (c : Char) : jsLowerChar (jsLowerChar c) = jsLowerChar c := by
  have h : jsLowerChar c = c ∨ jsLowerChar (jsLowerChar c) = jsLowerChar c := by
    unfold jsLowerChar
    split
    all_goals first | (right; decide) | (left; rfl)
  rcases h with h | h
  · rw [h, h]
  · exact h

/-- ASCII lowercasing preserves whitespace-ness. -/
theorem isWhitespace_jsLowerChar (c : Char) : (jsLowerChar c).isWhitespace = c.isWhitespace := by
  unfold jsLowerChar
  split
  all_goals first | decide | rfl

/-- A whitespace character is not a word character. -/
theorem ws_not_word {c : Char} (h : c.isWhitespace = true) : isWordChar c = false := by
  have h' : ((c = ' ' ∨ c = '\t') ∨ c = '\x0d') ∨ c = '\n' := by
    have hb : (c = ' ' || c = '\t' || c = '\r' || c = '\n') = true := h
    simpa using hb
  rcases h' with ((rfl | rfl) | rfl) | rfl <;> decide

/-- A whitespace character is not a letter. -/
theorem ws_not_letter {c : Char} (h : c.isWhitespace = true) : isLetterChar c = false := by
  have h' : ((c = ' ' ∨ c = '\t') ∨ c = '\x0d') ∨ c = '\n' := by
    have hb : (c = ' ' || c = '\t' || c = '\r' || c = '\n') = true := h
    simpa using hb
  rcases h' with ((rfl | rfl) | rfl) | rfl <;> decide

/-- A word character is not whitespace. -/
theorem word_not_ws {c : Char} (h : isWordChar c = true) : c.isWhitespace = false := by
  cases hw : c.isWhitespace
  · rfl
  · rw [ws_not_word hw] at h; cases h

/-- A letter is not whitespace. -/
theorem letter_not_ws {c : Char} (h : isLetterChar c = true) : c.isWhitespace = false := by
  cases hw : c.isWhitespace
  · rfl
  · rw [ws_not_letter hw] at h; cases h

/-- The substring test agrees with the infix relation. -/
theorem containsSub_iff {n : List Char} : ∀ {h : List Char}, containsSub n h = true ↔ n <:+: h := by
  intro h
  induction h with
  | nil =>
    simp [containsSub, List.isEmpty_iff, List.infix_nil]
  | cons c t ih =>
    rw [containsSub]
    simp [ List.isPrefixOf_iff_prefix, ih, List.infix_cons_iff]

/-- An infix whose head is not whitespace survives dropping a whitespace
prefix. -/
theorem infix_dropWhile_ws {t : List Char} (hh : ∀ c ∈ t.head?, c.isWhitespace = false) :
    ∀ {s : List Char}, t <:+: s → t <:+: s.dropWhile Char.isWhitespace := by
  intro s h
  obtain ⟨a, b, rfl⟩ := h
  induction a with
  | nil =>
    cases t with
    | nil => exact List.nil_infix
    | cons c r =>
      have hc : c.isWhitespace = false := hh c (by simp)
      rw [List.nil_append, List.cons_append, List.dropWhile_cons]
      rw [hc]
      exact ⟨[], b, by simp⟩
  | cons x a' ih =>
    rw [List.cons_append, List.cons_append, List.dropWhile_cons]
    cases hx : x.isWhitespace
    · exact ⟨x :: a', b, by simp⟩
    · simpa using ih

/-- An infix with non-whitespace head and last characters survives
trimming. -/
theorem infix_trim {t : List Char} (hh : ∀ c ∈ t.head?, c.isWhitespace = false)
    (hl : ∀ c ∈ t.getLast?, c.isWhitespace = false) {s : List Char} (h : t <:+: s) :
    t <:+: jsTrimList s := by
  have h1 : t <:+: s.dropWhile Char.isWhitespace := infix_dropWhile_ws hh h
  have h2 : t.reverse <:+: (s.dropWhile Char.isWhitespace).reverse :=
    List.reverse_infix.mpr h1
  have h3 : t.reverse <:+: ((s.dropWhile Char.isWhitespace).reverse).dropWhile Char.isWhitespace :=
    infix_dropWhile_ws (by simpa [List.head?_reverse] using hl) h2
  have h4 : t <:+: jsTrimList s := by
    rw [jsTrimList]
    exact List.reverse_infix.mp (by simpa [List.reverse_reverse] using h3)
  exact h4

/-- The trimmed list is an infix of the original. -/
theorem jsTrimList_infix_self (s : List Char) : jsTrimList s <:+: s := by
  have h2 : ((s.dropWhile Char.isWhitespace).reverse.dropWhile Char.isWhitespace)
      <:+ (s.dropWhile Char.isWhitespace).reverse := List.dropWhile_suffix _
  have h3 : jsTrimList s <+: s.dropWhile Char.isWhitespace := by
    rw [jsTrimList]
    have h3' := List.reverse_prefix.mpr h2
    rwa [List.reverse_reverse] at h3'
  obtain ⟨w, hw⟩ := h3
  obtain ⟨p, hp⟩ := List.dropWhile_suffix (p := Char.isWhitespace) (l := s)
  exact ⟨p, w, by rw [List.append_assoc, hw, hp]⟩

/-- Filtering with a predicate false on whitespace ignores a dropped
whitespace prefix. -/
theorem filter_dropWhile_ws {p : Char → Bool} (hp : ∀ c, c.isWhitespace = true → p c = false) :
    ∀ (l : List Char), (l.dropWhile Char.isWhitespace).filter p = l.filter p := by
  intro l
  induction l with
  | nil => rfl
  | cons c t ih =>
    by_cases hc : c.isWhitespace = true
    · rw [List.dropWhile_cons, if_pos hc, ih, List.filter_cons, hp c hc]
      simp
    · rw [List.dropWhile_cons, if_neg hc]

/-- Filtering with a predicate false on whitespace ignores trimming. -/
theorem filter_jsTrimList {p : Char → Bool} (hp : ∀ c, c.isWhitespace = true → p c = false)
    (l : List Char) : (jsTrimList l).filter p = l.filter p := by
  rw [jsTrimList, List.filter_reverse, filter_dropWhile_ws hp, List.filter_reverse,
    List.reverse_reverse, filter_dropWhile_ws hp]

/-- Removing whitespace after space-normalization is plain letter
filtering. -/
theorem filter_squeeze_toSpaces :
    ∀ (b : Bool) (l : List Char),
      (squeezeSpaces b (toSpaces l)).filter (fun c => !c.isWhitespace) = l.filter isLetterChar := by
  intro b l
  induction l generalizing b with
  | nil => cases b <;> rfl
  | cons c t ih =>
    by_cases hc : isLetterChar c = true
    · have hne : ¬(c = ' ') := by
        intro h; rw [h] at hc; exact absurd hc (by decide)
      have hnw : c.isWhitespace = false := letter_not_ws hc
      show (squeezeSpaces b ((if isLetterChar c then c else ' ') :: toSpaces t)).filter _ = _
      rw [if_pos hc, squeezeSpaces, if_neg hne, List.filter_cons]
      simp only [hnw, Bool.not_false, if_pos]
      rw [ih false, List.filter_cons, hc]
      simp
    · have hc' : isLetterChar c = false := by simpa using hc
      show (squeezeSpaces b ((if isLetterChar c then c else ' ') :: toSpaces t)).filter _ = _
      rw [hc']
      show (squeezeSpaces b (' ' :: toSpaces t)).filter _ = _
      rw [squeezeSpaces, if_pos rfl]
      have hws : (' ' : Char).isWhitespace = true := by decide
      cases b
      · show (List.filter _ (' ' :: squeezeSpaces true (toSpaces t))) = _
        rw [List.filter_cons]
        simp only [hws, Bool.not_true, if_neg]
        rw [ih true, List.filter_cons, hc']
        simp
      · show (squeezeSpaces true (toSpaces t)).filter _ = _
        rw [ih true, List.filter_cons, hc']
        simp

/-- The letters-only normalization of the script is letter filtering of the
lowercased text. -/
theorem removeSpaces_normalizeLetters (s : String) :
    removeSpaces (normalizeLetters s) = String.mk ((jsToLower s).data.filter isLetterChar) := by
  show String.mk ((jsTrimList (squeezeSpaces false (toSpaces (jsToLower s).data))).filter _) = _
  rw [filter_jsTrimList (fun c h => by simp [h]), filter_squeeze_toSpaces]

/-- Trimming commutes with whitespace-preserving character maps. -/
theorem jsTrimList_map {f : Char → Char} (hf : ∀ c, (f c).isWhitespace = c.isWhitespace)
    (l : List Char) : jsTrimList (l.map f) = (jsTrimList l).map f := by
  have hw : (Char.isWhitespace ∘ f) = Char.isWhitespace := funext hf
  rw [jsTrimList, jsTrimList, List.dropWhile_map, hw, ← List.map_reverse, List.dropWhile_map,
    hw, ← List.map_reverse]

/-- Lowercasing the trimmed lowercased text is just trimming the lowercased
text. -/
theorem lcTrim_data (text : String) :
    (jsToLower (jsTrim (jsToLower text))).data = jsTrimList ((jsToLower text).data) := by
  show (jsTrimList (text.data.map jsLowerChar)).map jsLowerChar = _
  rw [jsTrimList_map isWhitespace_jsLowerChar, List.map_map]
  have hff : jsLowerChar ∘ jsLowerChar = jsLowerChar := funext jsLowerChar_idem
  rw [hff]
  show _ = jsTrimList (text.data.map jsLowerChar)
  rw [jsTrimList_map isWhitespace_jsLowerChar]

/-- Unfolding of one matching step of the anchored regex. -/
theorem matchHere_cons (h c : Char) (tr X : List Char) :
    matchHere (h :: tr) (c :: X) = ((h == c) && matchHere tr X) := by
  show ((h == c && tr.isPrefixOf X) && _) = _
  conv_rhs => rw [matchHere]
  rw [Bool.and_assoc]
  rfl

/-- A token with a non-whitespace last character cannot match inside an
all-whitespace list. -/
theorem matchHere_all_ws {td w : List Char} (hne : td ≠ [])
    (hl : ∀ c ∈ td.getLast?, c.isWhitespace = false)
    (hw : ∀ x ∈ w, x.isWhitespace = true) : matchHere td w = false := by
  cases w with
  | nil =>
    cases td with
    | nil => exact absurd rfl hne
    | cons h tr => rfl
  | cons cw w' =>
    cases hp : td.isPrefixOf (cw :: w') with
    | false => rw [matchHere, hp]; rfl
    | true =>
      exfalso
      have hpre : td <+: cw :: w' := List.isPrefixOf_iff_prefix.mp hp
      have hmem : td.getLast hne ∈ cw :: w' := hpre.subset (List.getLast_mem hne)
      have hwsl : (td.getLast hne).isWhitespace = true := hw _ hmem
      have := hl (td.getLast hne) (by rw [List.getLast?_eq_getLast _ hne]; rfl)
      rw [hwsl] at this
      cases this

/-- Appending all-whitespace input does not change a match of a token whose
last character is not whitespace. -/
theorem matchHere_append_ws {w : List Char} (hw : ∀ x ∈ w, x.isWhitespace = true) :
    ∀ (m td : List Char), (∀ c ∈ td.getLast?, c.isWhitespace = false) →
      matchHere td (m ++ w) = matchHere td m := by
  intro m
  induction m with
  | nil =>
    intro td hl
    rw [List.nil_append]
    cases td with
    | nil =>
      cases w with
      | nil => rfl
      | cons cw w' =>
        have hws : cw.isWhitespace = true := hw cw (by simp)
        show (true && !isWordChar cw) = (true && true)
        rw [ws_not_word hws]
        rfl
    | cons h tr =>
      rw [matchHere_all_ws (by simp) hl hw]
      rfl
  | cons c m' ih =>
    intro td hl
    rw [List.cons_append]
    cases td with
    | nil => rfl
    | cons h tr =>
      rw [matchHere_cons, matchHere_cons, ih tr ?_]
      intro x hx
      cases tr with
      | nil => cases hx
      | cons h2 tr2 =>
        apply hl
        rwa [List.getLast?_cons_cons]

/-- A token whose head is a word character never matches anywhere in an
all-whitespace list. -/
theorem wbSearch_all_ws {h : Char} {tr : List Char} (hh : isWordChar h = true) :
    ∀ (p : Bool) (w : List Char), (∀ x ∈ w, x.isWhitespace = true) →
      wbSearch (h :: tr) p w = false := by
  intro p w
  induction w generalizing p with
  | nil => intro _; rfl
  | cons cw w' ih =>
    intro hw
    have hws : cw.isWhitespace = true := hw cw (by simp)
    have hne : (h == cw) = false := by
      refine beq_eq_false_iff_ne.mpr ?_
      intro he
      have := word_not_ws hh
      rw [he, hws] at this
      cases this
    have hm : matchHere (h :: tr) (cw :: w') = false := by
      show ((h == cw && _) && _) = false
      rw [hne]
      rfl
    rw [wbSearch, hm, ih (!isWordChar cw) (fun x hx => hw x (by simp [hx]))]
    simp

/-- Appending all-whitespace input does not change the word-boundary search
for a token with word-character head and non-whitespace last character. -/
theorem wbSearch_append_ws {h : Char} {tr w : List Char} (hh : isWordChar h = true)
    (hl : ∀ c ∈ (h :: tr).getLast?, c.isWhitespace = false)
    (hw : ∀ x ∈ w, x.isWhitespace = true) :
    ∀ (p : Bool) (l : List Char), wbSearch (h :: tr) p (l ++ w) = wbSearch (h :: tr) p l := by
  intro p l
  induction l generalizing p with
  | nil =>
    rw [List.nil_append, wbSearch_all_ws hh p w hw]
    rfl
  | cons c l' ih =>
    have hm := matchHere_append_ws hw (c :: l') (h :: tr) hl
    rw [List.cons_append] at hm
    rw [List.cons_append, wbSearch, hm, ih]
    rw [wbSearch]

/-- Dropping a whitespace prefix does not change the word-boundary search for
a token whose head is a word character. -/
theorem wbSearch_dropWhile_ws {h : Char} {tr : List Char} (hh : isWordChar h = true) :
    ∀ (s : List Char),
      wbSearch (h :: tr) true (s.dropWhile Char.isWhitespace) = wbSearch (h :: tr) true s := by
  intro s
  induction s with
  | nil => rfl
  | cons c t ih =>
    by_cases hc : c.isWhitespace = true
    · rw [List.dropWhile_cons, if_pos hc, ih]
      have hne : (h == c) = false := by
        refine beq_eq_false_iff_ne.mpr ?_
        intro he
        have := word_not_ws hh
        rw [he, hc] at this
        cases this
      have hm : matchHere (h :: tr) (c :: t) = false := by
        show ((h == c && _) && _) = false
        rw [hne]
        rfl
      rw [wbSearch, hm, ws_not_word hc]
      simp
    · rw [List.dropWhile_cons, if_neg hc]

/-- Whitespace suffix decomposition of a dropWhile-trimmed list. -/
theorem dropWhile_eq_trim_append (s : List Char) :
    s.dropWhile Char.isWhitespace =
      jsTrimList s ++ ((s.dropWhile Char.isWhitespace).reverse.takeWhile Char.isWhitespace).reverse := by
  rw [jsTrimList]
  conv_lhs => rw [← List.reverse_reverse (s.dropWhile Char.isWhitespace)]
  conv_lhs =>
    rw [← List.takeWhile_append_dropWhile Char.isWhitespace (s.dropWhile Char.isWhitespace).reverse]
  rw [List.reverse_append]

/-- The word-boundary search over the trimmed lowercased text agrees with
the search over the untrimmed text, for tokens with word-character head and
last characters. -/
theorem wbSearch_trim {h : Char} {tr : List Char} (hh : isWordChar h = true)
    (hlw : ∀ c ∈ (h :: tr).getLast?, isWordChar c = true) (s : List Char) :
    wbSearch (h :: tr) true (jsTrimList s) = wbSearch (h :: tr) true s := by
  have hl : ∀ c ∈ (h :: tr).getLast?, c.isWhitespace = false :=
    fun c hc => word_not_ws (hlw c hc)
  have hwsuf : ∀ x ∈ ((s.dropWhile Char.isWhitespace).reverse.takeWhile Char.isWhitespace).reverse,
      x.isWhitespace = true := by
    intro x hx
    rw [List.mem_reverse] at hx
    exact List.mem_takeWhile_imp hx
  calc wbSearch (h :: tr) true (jsTrimList s)
      = wbSearch (h :: tr) true (jsTrimList s ++
          ((s.dropWhile Char.isWhitespace).reverse.takeWhile Char.isWhitespace).reverse) :=
        (wbSearch_append_ws hh hl hwsuf true (jsTrimList s)).symm
    _ = wbSearch (h :: tr) true (s.dropWhile Char.isWhitespace) := by
        rw [← dropWhile_eq_trim_append]
    _ = wbSearch (h :: tr) true s := wbSearch_dropWhile_ws hh s

/-- Every negative token is nonempty with non-whitespace end characters. -/
theorem no_tokens_good : NO_TOKENS.all tokGood = true := by decide

/-- Every long affirmative token is nonempty with word-character end
characters. -/
theorem yes_tokens_word : YES_LONG_TOKENS.all tokWord = true := by decide

/-- Unpacking of `tokGood`. -/
theorem tokGood_spec {tok : String} (hg : tokGood tok = true) :
    (∀ c ∈ tok.data.head?, c.isWhitespace = false) ∧
    (∀ c ∈ tok.data.getLast?, c.isWhitespace = false) := by
  rw [tokGood] at hg
  rcases hd : tok.data with _ | ⟨c, r⟩
  · rw [hd] at hg; cases hg
  · rcases hgl : (c :: r).getLast? with _ | d
    · rw [List.getLast?_eq_getLast (c :: r) (List.cons_ne_nil c r)] at hgl
      cases hgl
    · rw [hd, hgl] at hg
      simp only [Bool.and_eq_true, Bool.not_eq_true'] at hg
      constructor
      · intro x hx
        simp at hx
        rw [← hx]
        exact hg.1
      · intro x hx
        simp at hx
        rw [← hx]
        exact hg.2

/-- Unpacking of `tokWord`. -/
theorem tokWord_spec {tok : String} (hg : tokWord tok = true) :
    ∃ h tr, tok.data = h :: tr ∧ isWordChar h = true ∧
      (∀ c ∈ (h :: tr).getLast?, isWordChar c = true) := by
  rw [tokWord] at hg
  rcases hd : tok.data with _ | ⟨c, r⟩
  · rw [hd] at hg; cases hg
  · rcases hgl : (c :: r).getLast? with _ | d
    · rw [List.getLast?_eq_getLast (c :: r) (List.cons_ne_nil c r)] at hgl
      cases hgl
    · rw [hd, hgl] at hg
      simp only [Bool.and_eq_true] at hg
      refine ⟨c, r, rfl, hg.1, ?_⟩
      intro x hx
      rw [hgl] at hx
      simp at hx
      rw [← hx]
      exact hg.2

/-- Pointwise-equal predicates give the same `any`. -/
theorem any_congr_mem {l : List String} {p q : String → Bool}
    (h : ∀ x ∈ l, p x = q x) : l.any p = l.any q := by
  induction l with
  | nil => rfl
  | cons a t ih =>
    rw [List.any_cons, List.any_cons, h a (by simp), ih (fun x hx => h x (by simp [hx]))]

/-! Bridges between the trimmed lowercased text the script uses internally
and the raw text the claims speak about. -/

/-- Negativity of the trimmed lowercased text equals negativity of the raw
text. -/
theorem isNegativeTurn_trim (text : String) :
    isNegativeTurn (jsTrim (jsToLower text)) = isNegativeTurn text := by
  apply boolEqOfIff
  simp only [isNegativeTurn, strContains, List.any_eq_true]
  constructor
  · rintro ⟨tok, hmem, hsub⟩
    refine ⟨tok, hmem, ?_⟩
    rw [containsSub_iff] at hsub ⊢
    rw [lcTrim_data] at hsub
    exact hsub.trans (jsTrimList_infix_self _)
  · rintro ⟨tok, hmem, hsub⟩
    refine ⟨tok, hmem, ?_⟩
    rw [containsSub_iff] at hsub ⊢
    rw [lcTrim_data]
    have hg := tokGood_spec (List.all_eq_true.mp no_tokens_good tok hmem)
    exact infix_trim hg.1 hg.2 hsub

/-- The letters-only normalization is the same for the trimmed lowercased
text and the raw text. -/
theorem lettersOnly_trim (text : String) :
    removeSpaces (normalizeLetters (jsTrim (jsToLower text))) =
      removeSpaces (normalizeLetters text) := by
  rw [removeSpaces_normalizeLetters, removeSpaces_normalizeLetters]
  rw [show (jsToLower (jsTrim (jsToLower text))).data = jsTrimList ((jsToLower text).data) from
    lcTrim_data text]
  rw [filter_jsTrimList (fun c h => ws_not_letter h)]

/-- The long-affirmative scan over the trimmed lowercased text equals the
spec-side scan over the lowercased raw text. -/
theorem longScan_trim (text : String) :
    (YES_LONG_TOKENS.any fun tok => wordBoundaryMatch tok (jsTrim (jsToLower text))) =
      specLongAffirmative text := by
  rw [specLongAffirmative]
  apply any_congr_mem
  intro tok hmem
  obtain ⟨h, tr, hd, hh, hlw⟩ := tokWord_spec (List.all_eq_true.mp yes_tokens_word tok hmem)
  show wbSearch tok.data true (jsTrim (jsToLower text)).data =
    wbSearch tok.data true (jsToLower text).data
  rw [hd]
  show wbSearch (h :: tr) true (jsTrimList (jsToLower text).data) = _
  rw [wbSearch_trim hh hlw]

/-! Helper lemmas about the persistence operations. -/

/-- A posted request is exactly the payload built from the options of the call. -/
theorem saveConversation_req_eq (st : CtrlState) (o : SaveOptions) (t d : Nat) (r : FetchResp) :
    (saveConversation st o t d r).req = none ∨
      (saveConversation st o t d r).req = some (savePayload st o) := by
  simp only [saveConversation]
  split
  · left; rfl
  split
  · left; rfl
  split
  · left; rfl
  rcases r with _ | ⟨ok, idOpt⟩
  · right; rfl
  · dsimp only
    split
    · right; rfl
    · right; rfl

/-- Every request posted by `saveConversation` carries the `finalize` and
`confirmed` flags of its options. -/
theorem saveConversation_req_opts {st : CtrlState} {o : SaveOptions} {t d : Nat} {r : FetchResp}
    {sr : SaveRequest} (h : sr ∈ (saveConversation st o t d r).req.toList) :
    sr.finalize = o.finalize ∧ sr.confirmed = o.confirmed := by
  rcases saveConversation_req_eq st o t d r with he | he <;> rw [he] at h
  · cases h
  · simp only [Option.toList_some, List.mem_singleton] at h
    rw [h]
    exact ⟨rfl, rfl⟩

/-- Model of `saveConversation` never changes `finalized` or the conversation
state. -/
theorem saveConversation_st_inv (st : CtrlState) (o : SaveOptions) (t d : Nat) (r : FetchResp) :
    (saveConversation st o t d r).st.finalized = st.finalized ∧
    (saveConversation st o t d r).st.convoState = st.convoState := by
  simp only [saveConversation]
  split
  · exact ⟨rfl, rfl⟩
  split
  · exact ⟨rfl, rfl⟩
  split
  · exact ⟨rfl, rfl⟩
  rcases r with _ | ⟨ok, idOpt⟩
  · exact ⟨rfl, rfl⟩
  · dsimp only
    split
    · exact ⟨rfl, rfl⟩
    · exact ⟨rfl, rfl⟩

/-- A skipped stop posts nothing. -/
theorem stop_skip_saves (st : CtrlState) (t1 d1 t2 d2 : Nat) (r1 r2 : FetchResp) :
    (stop st true t1 d1 t2 d2 r1 r2).saves = [] := rfl

/-- The requests `stop` posts when saving is not skipped. -/
theorem stop_saves_eq (st : CtrlState) (t1 d1 t2 d2 : Nat) (r1 r2 : FetchResp) :
    (stop st false t1 d1 t2 d2 r1 r2).saves =
      (if (!(saveConversation st stopPhase1Opts t1 d1 r1).st.finalized &&
            (saveConversation st stopPhase1Opts t1 d1 r1).ok) = true then
        (saveConversation st stopPhase1Opts t1 d1 r1).req.toList ++
          (saveConversation (saveConversation st stopPhase1Opts t1 d1 r1).st
            stopPhase2Opts t2 d2 r2).req.toList
      else (saveConversation st stopPhase1Opts t1 d1 r1).req.toList) := by
  simp only [stop]
  split
  · next hc => exact absurd hc (by decide)
  · split <;> rfl

/-- Every request posted by `stop` with `finalize` set carries
`confirmed`. -/
theorem stop_saves_conf {st : CtrlState} {skip : Bool} {t1 d1 t2 d2 : Nat} {r1 r2 : FetchResp}
    {sr : SaveRequest} (h : sr ∈ (stop st skip t1 d1 t2 d2 r1 r2).saves)
    (hf : sr.finalize = true) : sr.confirmed = true := by
  cases skip
  · rw [stop_saves_eq] at h
    split at h
    · rw [List.mem_append] at h
      rcases h with h | h
      · have := saveConversation_req_opts h
        rw [hf] at this
        cases this.1
      · exact (saveConversation_req_opts h).2
    · have := saveConversation_req_opts h
      rw [hf] at this
      cases this.1
  · rw [stop_skip_saves] at h
    cases h

/-- Every request posted by `tryAutoSave` is a non-finalize request. -/
theorem tryAutoSave_req_nofin {st : CtrlState} {reason : String} {t d : Nat} {r : FetchResp}
    {sr : SaveRequest} (h : sr ∈ (tryAutoSave st reason t d r).req.toList) :
    sr.finalize = false := by
  rw [tryAutoSave] at h
  split at h
  · cases h
  · exact (saveConversation_req_opts h).1

/-- Every request posted by `finalizeClientSide` with `finalize` set carries
`confirmed`. -/
theorem finalizeClientSide_saves_conf {st : CtrlState} {reason : String} {t d : Nat}
    {r : FetchResp} {sr : SaveRequest} (h : sr ∈ (finalizeClientSide st reason t d r).saves)
    (hf : sr.finalize = true) : sr.confirmed = true := by
  simp only [finalizeClientSide] at h
  repeat' split at h
  all_goals
    first
    | cases h
    | exact (saveConversation_req_opts h).2
    | (rw [List.mem_append] at h
       rcases h with h | h
       · exact (saveConversation_req_opts h).2
       · rw [stop_skip_saves] at h
         cases h)

/-- Every request posted by the tool-call completion handler with `finalize`
set carries `confirmed`. -/
theorem handleFnCallDone_saves_conf {st : CtrlState} {id name : String} {t d : Nat}
    {r : FetchResp} {sr : SaveRequest} (h : sr ∈ (handleFnCallDone st id name t d r).saves)
    (hf : sr.finalize = true) : sr.confirmed = true := by
  simp only [handleFnCallDone] at h
  repeat' split at h
  all_goals
    first
    | cases h
    | exact (saveConversation_req_opts h).2
    | (rw [List.mem_append] at h
       rcases h with h | h
       · exact (saveConversation_req_opts h).2
       · rw [stop_skip_saves] at h
         cases h)

/-! Claim theorems. -/

/-- C1: every SaveRequest the controller emits with `finalize = true` also
carries `confirmed = true`, on every code path reachable from an inbound
event, a timer firing, the stop button or the unload hook (tool-call
finalize, fallback-timer finalize, and the forced finalize issued by
`stop()` included); the controller never posts a finalize request without an
affirmed confirmation flag. -/
theorem C1_finalize_requests_confirmed (st : CtrlState) (ev : RtEvent) :
    ∀ sr ∈ (step st ev).saves, sr.finalize = true → sr.confirmed = true := by
  intro sr h hf
  cases ev with
  | userDelta text =>
    simp only [step] at h
    cases h
  | userTurnDone now =>
    simp only [step] at h
    cases h
  | assistantDelta text now =>
    simp only [step] at h
    cases h
  | assistantTurnDone =>
    simp only [step, onAssistantTurnDone] at h
    split at h
    · rw [stop_skip_saves] at h
      cases h
    · cases h
  | fnCallDelta id delta =>
    simp only [step] at h
    cases h
  | fnCallDone id name nowTs doneTs resp =>
    simp only [step] at h
    exact handleFnCallDone_saves_conf h hf
  | fallbackTimerFire nowTs doneTs resp =>
    simp only [step] at h
    split at h
    · exact finalizeClientSide_saves_conf h hf
    · cases h
  | autosaveTimerFire nowTs doneTs resp =>
    simp only [step] at h
    split at h
    · rw [tryAutoSave_req_nofin h] at hf
      cases hf
    · cases h
  | autosaveEvent reason nowTs doneTs resp =>
    simp only [step] at h
    rw [tryAutoSave_req_nofin h] at hf
    cases hf
  | stopClick t1 d1 t2 d2 resp1 resp2 =>
    simp only [step] at h
    exact stop_saves_conf h hf
  | pageUnload =>
    simp only [step, List.mem_singleton] at h
    rw [h] at hf
    cases hf

/-- C1 witness: the forced finalize posted by a concrete stop click carries
`confirmed = true`. -/
theorem C1_witness :
    ({ session_id := "", user_text := "hi", ai_text := "", autosave := true,
       reason := "manual_stop_finalize", close := true, finalize := true,
       confirmed := true, conversation_id := none } : SaveRequest).confirmed = true :=
  C1_finalize_requests_confirmed { initState with userText := "hi" }
    (RtEvent.stopClick 20000 20001 20002 20003 (some (true, none)) (some (true, none)))
    _ (by decide) (by decide)

/-- C2: a `finalize_conversation` tool call whose buffered arguments carry
`confirmed = true`, arriving strictly before `rejectFinalizeUntilTs`, is
rejected: no save request is posted, `finalized` stays false and the
conversation state is `active` afterwards, regardless of any other
permission condition. -/
theorem C2_lockout_rejects_finalize (st : CtrlState) (id : String) (nowTs doneTs : Nat)
    (resp : FetchResp)
    (hconf : argsConfirmed (parseFnArgs (bufGet st.fnArgBuffers id)) = true)
    (hlock : nowTs < st.rejectFinalizeUntilTs)
    (hfin : st.finalized = false) :
    (step st (RtEvent.fnCallDone id "finalize_conversation" nowTs doneTs resp)).saves = [] ∧
    (step st (RtEvent.fnCallDone id "finalize_conversation" nowTs doneTs resp)).st.finalized = false ∧
    (step st (RtEvent.fnCallDone id "finalize_conversation" nowTs doneTs resp)).st.convoState =
      ConvoState.active := by
  simp only [step, handleFnCallDone]
  rw [if_pos trivial, if_pos hlock]
  exact ⟨rfl, hfin, rfl⟩

/-- C2 witness at a concrete locked-out state. -/
theorem C2_witness :
    (step { initState with
        rejectFinalizeUntilTs := 9000
        fnArgBuffers := [("c1", "\x7b\"confirmed\":true\x7d")] }
      (RtEvent.fnCallDone "c1" "finalize_conversation" 5000 5001 (some (true, none)))).saves = [] :=
  (C2_lockout_rejects_finalize _ "c1" 5000 5001 (some (true, none))
    (by decide) (by decide) (by decide)).1

/-- C5: `hasFinalizePermission` returns true exactly when the classic path
holds (question asked, within 90 s, the user replied after the question, and
granted) or the fallback path holds (stop intent within 20 s, granted, not in
lockout); the classic path does not consult the lockout timestamp. -/
theorem C5_hasFinalizePermission_iff (st : CtrlState) (now : Nat) :
    hasFinalizePermission st now = true ↔
      ((st.confirmationRequested = true ∧
        (now : Int) - (st.confirmationAskedAt : Int) ≤ 90000 ∧
        st.lastUserTurnIndex > st.confirmAskedTurnIndex ∧
        st.confirmationGranted = true) ∨
       ((now : Int) - (st.lastStopIntentTs : Int) ≤ 20000 ∧
        st.confirmationGranted = true ∧
        now ≥ st.rejectFinalizeUntilTs)) := by
  simp only [hasFinalizePermission, CONFIRM_WINDOW_MS, STOP_INTENT_WINDOW_MS,
    Bool.or_eq_true, Bool.and_eq_true, decide_eq_true_eq]
  constructor
  · rintro (⟨⟨⟨h1, h2⟩, h3⟩, h4⟩ | ⟨⟨h1, h2⟩, h3⟩)
    · exact Or.inl ⟨h1, by simpa using h2, h3, h4⟩
    · exact Or.inr ⟨by simpa using h1, h2, h3⟩
  · rintro (⟨h1, h2, h3, h4⟩ | ⟨h1, h2, h3⟩)
    · exact Or.inl ⟨⟨⟨h1, by simpa using h2⟩, h3⟩, h4⟩
    · exact Or.inr ⟨⟨by simpa using h1, h2⟩, h3⟩

/-- C5 witness: the fallback path at a concrete state. -/
theorem C5_witness :
    hasFinalizePermission
      { initState with confirmationGranted := true, lastStopIntentTs := 90 } 100 = true :=
  (C5_hasFinalizePermission_iff _ 100).mpr (Or.inr ⟨by decide, rfl, by decide⟩)

/-- C10: once `finalized` is true, `markDirty` (called on every transcript
delta) is a no-op — it neither sets the dirty flag nor arms the autosave
debounce timer — and with the dirty flag clear `tryAutoSave` posts nothing,
so transcript activity initiates no autosave after a successful finalize. -/
theorem C10_finalized_stops_autosave (st : CtrlState) (reason : String) (t d : Nat)
    (r : FetchResp) (hfin : st.finalized = true) :
    markDirty st = st ∧
    (st.dirty = false →
      (tryAutoSave st reason t d r).req = none ∧ (tryAutoSave st reason t d r).st = st) := by
  constructor
  · rw [markDirty, hfin]
    rfl
  · intro hd
    rw [tryAutoSave, hd]
    exact ⟨rfl, rfl⟩

/-- C10 witness at a concrete finalized state. -/
theorem C10_witness :
    markDirty { initState with finalized := true } = { initState with finalized := true } :=
  (C10_finalized_stops_autosave { initState with finalized := true } "idle" 0 0 none rfl).1

/-! Characterization lemmas for the save guards and the two-phase stop. -/

/-- A non-whitespace member survives `dropWhile`. -/
theorem mem_dropWhile_of_not_ws {c : Char} (hc : c.isWhitespace = false) :
    ∀ {l : List Char}, c ∈ l → c ∈ l.dropWhile Char.isWhitespace := by
  intro l h
  induction l with
  | nil => cases h
  | cons x t ih =>
    by_cases hx : x.isWhitespace = true
    · rw [List.dropWhile_cons, if_pos hx]
      rcases List.mem_cons.mp h with rfl | h2
      · rw [hx] at hc; cases hc
      · exact ih h2
    · rw [List.dropWhile_cons, if_neg hx]
      exact h

/-- A non-whitespace member survives trimming. -/
theorem mem_jsTrimList {c : Char} (hc : c.isWhitespace = false) {l : List Char} (h : c ∈ l) :
    c ∈ jsTrimList l := by
  rw [jsTrimList, List.mem_reverse]
  exact mem_dropWhile_of_not_ws hc
    (by rw [List.mem_reverse]; exact mem_dropWhile_of_not_ws hc h)

/-- The snapshot always contains the `----` separator, so its trim is never
the empty string and the empty-snapshot guard never fires. -/
theorem snapshot_trim_ne (st : CtrlState) : jsTrim (currentSnapshot st) ≠ "" := by
  intro hEq
  have hmid : '-' ∈ ("\n----\n" : String).data := by decide
  have hmem : '-' ∈ (currentSnapshot st).data := by
    rw [currentSnapshot]
    rw [String.data_append, String.data_append]
    exact List.mem_append.mpr (Or.inl (List.mem_append.mpr (Or.inr hmid)))
  have h2 : '-' ∈ jsTrimList (currentSnapshot st).data := mem_jsTrimList (by decide) hmem
  have h3 : jsTrimList (currentSnapshot st).data = ([] : List Char) := congrArg String.data hEq
  rw [h3] at h2
  cases h2

/-- When `saveConversation` posts no request. -/
theorem saveConversation_req_none_iff (st : CtrlState) (o : SaveOptions) (t d : Nat)
    (r : FetchResp) :
    (saveConversation st o t d r).req = none ↔
      (o.finalize = false ∧ (st.saving = true ∨
        (o.autosave = true ∧ (t : Int) - (st.lastSaveAt : Int) < 10000))) := by
  simp only [saveConversation]
  split
  · next hc => exact absurd hc (snapshot_trim_ne st)
  split
  · next hc =>
    simp only [Bool.and_eq_true, Bool.not_eq_true'] at hc
    simp [hc.1, hc.2]
  split
  · next hc hc2 =>
    simp only [Bool.and_eq_true, Bool.not_eq_true', decide_eq_true_eq, MIN_SAVE_INTERVAL_MS] at hc2
    obtain ⟨⟨hf, ha⟩, ht⟩ := hc2
    simp only [hf]
    constructor
    · intro _
      exact ⟨trivial, Or.inr ⟨ha, by exact_mod_cast ht⟩⟩
    · intro _
      trivial
  · next hc hc2 =>
    constructor
    · intro hn
      exfalso
      rcases r with _ | ⟨ok, idOpt⟩
      · cases hn
      · dsimp only at hn
        split at hn <;> cases hn
    · rintro ⟨hf, hs | ⟨ha, ht⟩⟩
      · exact absurd (by simp [hs, hf]) hc
      · exact absurd (by
          simp only [Bool.and_eq_true, Bool.not_eq_true', decide_eq_true_eq, MIN_SAVE_INTERVAL_MS]
          exact ⟨⟨hf, ha⟩, by exact_mod_cast ht⟩) hc2

/-- The in-flight guard reports failure, not success. -/
theorem saveConversation_ok_inflight {st : CtrlState} {o : SaveOptions} {t d : Nat}
    {r : FetchResp} (hs : st.saving = true) (hf : o.finalize = false) :
    (saveConversation st o t d r).ok = false := by
  simp only [saveConversation]
  split
  · next hc => exact absurd hc (snapshot_trim_ne st)
  split
  · rfl
  · next hc => exact absurd (by simp [hs, hf]) hc

/-- The autosave throttle reports success. -/
theorem saveConversation_ok_throttle {st : CtrlState} {o : SaveOptions} {t d : Nat}
    {r : FetchResp} (hs : st.saving = false) (hf : o.finalize = false)
    (ha : o.autosave = true) (ht : (t : Int) - (st.lastSaveAt : Int) < 10000) :
    (saveConversation st o t d r).ok = true := by
  simp only [saveConversation]
  split
  · next hc => exact absurd hc (snapshot_trim_ne st)
  split
  · next hc =>
    rw [hs] at hc
    simp at hc
  split
  · rfl
  · next hc hc2 =>
    exact absurd (by
      simp only [Bool.and_eq_true, Bool.not_eq_true', decide_eq_true_eq, MIN_SAVE_INTERVAL_MS]
      exact ⟨⟨hf, ha⟩, by exact_mod_cast ht⟩) hc2

/-- A finalize save is never blocked by the in-flight guard or the
throttle. -/
theorem saveConversation_finalize_emits {st : CtrlState} {o : SaveOptions} {t d : Nat}
    {r : FetchResp} (hf : o.finalize = true) :
    (saveConversation st o t d r).req.isSome = true := by
  simp only [saveConversation]
  split
  · next hc => exact absurd hc (snapshot_trim_ne st)
  split
  · next hc =>
    rw [hf] at hc
    simp at hc
  split
  · next hc hc2 =>
    rw [hf] at hc2
    simp at hc2
  · rcases r with _ | ⟨ok, idOpt⟩
    · rfl
    · dsimp only
      split <;> rfl

/-- The final state of an unskipped stop. -/
theorem stop_st_eq (st : CtrlState) (t1 d1 t2 d2 : Nat) (r1 r2 : FetchResp) :
    (stop st false t1 d1 t2 d2 r1 r2).st =
      (if (!(saveConversation st stopPhase1Opts t1 d1 r1).st.finalized &&
            (saveConversation st stopPhase1Opts t1 d1 r1).ok) = true then
        (if (saveConversation (saveConversation st stopPhase1Opts t1 d1 r1).st
              stopPhase2Opts t2 d2 r2).ok = true then
          stopCleanup { (saveConversation (saveConversation st stopPhase1Opts t1 d1 r1).st
              stopPhase2Opts t2 d2 r2).st with
            finalized := true, convoState := ConvoState.ended }
        else stopCleanup (saveConversation (saveConversation st stopPhase1Opts t1 d1 r1).st
              stopPhase2Opts t2 d2 r2).st)
      else stopCleanup (saveConversation st stopPhase1Opts t1 d1 r1).st) := by
  simp only [stop]
  split
  · next hc => exact absurd hc (by decide)
  · split
    · split <;> rfl
    · rfl

/-- C7: in the two-phase stop, a failed phase-1 save means no finalize
request is attempted in the same stop call; `finalized` is latched true
exactly when phase 1 and then phase 2 report ok, in which case the lifecycle
state moves to `ended`; a failed or skipped phase 2 leaves `finalized`
false. -/
theorem C7_two_phase_stop (st : CtrlState) (t1 d1 t2 d2 : Nat) (resp1 resp2 : FetchResp)
    (hfin : st.finalized = false) :
    ((saveConversation st stopPhase1Opts t1 d1 resp1).ok = false →
      (∀ sr ∈ (stop st false t1 d1 t2 d2 resp1 resp2).saves, sr.finalize = false) ∧
      (stop st false t1 d1 t2 d2 resp1 resp2).st.finalized = false) ∧
    ((stop st false t1 d1 t2 d2 resp1 resp2).st.finalized = true ↔
      ((saveConversation st stopPhase1Opts t1 d1 resp1).ok = true ∧
       (saveConversation (saveConversation st stopPhase1Opts t1 d1 resp1).st
         stopPhase2Opts t2 d2 resp2).ok = true)) ∧
    ((saveConversation st stopPhase1Opts t1 d1 resp1).ok = true →
      (saveConversation (saveConversation st stopPhase1Opts t1 d1 resp1).st
        stopPhase2Opts t2 d2 resp2).ok = true →
      (stop st false t1 d1 t2 d2 resp1 resp2).st.convoState = ConvoState.ended) ∧
    ((saveConversation (saveConversation st stopPhase1Opts t1 d1 resp1).st
        stopPhase2Opts t2 d2 resp2).ok = false →
      (stop st false t1 d1 t2 d2 resp1 resp2).st.finalized = false) := by
  have hA : (saveConversation st stopPhase1Opts t1 d1 resp1).st.finalized = false := by
    rw [(saveConversation_st_inv st stopPhase1Opts t1 d1 resp1).1, hfin]
  have hB : (saveConversation (saveConversation st stopPhase1Opts t1 d1 resp1).st
      stopPhase2Opts t2 d2 resp2).st.finalized = false := by
    rw [(saveConversation_st_inv _ stopPhase2Opts t2 d2 resp2).1, hA]
  refine ⟨?_, ?_, ?_, ?_⟩
  · intro h1
    constructor
    · intro sr hm
      rw [stop_saves_eq] at hm
      rw [hA, h1] at hm
      simp only [Bool.not_false, Bool.and_false] at hm
      rw [if_neg (by decide)] at hm
      exact (saveConversation_req_opts hm).1
    · rw [stop_st_eq, hA, h1]
      simp only [Bool.not_false, Bool.and_false]
      rw [if_neg (by decide)]
      exact hA
  · rw [stop_st_eq, hA]
    simp only [Bool.not_false, Bool.true_and]
    by_cases h1 : (saveConversation st stopPhase1Opts t1 d1 resp1).ok = true
    · rw [if_pos h1]
      by_cases h2 : (saveConversation (saveConversation st stopPhase1Opts t1 d1 resp1).st
          stopPhase2Opts t2 d2 resp2).ok = true
      · rw [if_pos h2]
        simp [stopCleanup, h1, h2]
      · rw [if_neg h2]
        simp only [stopCleanup]
        rw [hB]
        simp [h2]
    · rw [if_neg h1]
      simp only [stopCleanup]
      rw [hA]
      simp [h1]
  · intro h1 h2
    rw [stop_st_eq, hA]
    simp only [Bool.not_false, Bool.true_and]
    rw [if_pos h1, if_pos h2]
    rfl
  · intro h2
    rw [stop_st_eq, hA]
    simp only [Bool.not_false, Bool.true_and]
    by_cases h1 : (saveConversation st stopPhase1Opts t1 d1 resp1).ok = true
    · rw [if_pos h1, if_neg (by rw [h2]; decide)]
      simp only [stopCleanup]
      exact hB
    · rw [if_neg h1]
      simp only [stopCleanup]
      exact hA

/-- C7 witness: with a failing phase-1 response at a concrete state, the stop
posts no finalize request and leaves `finalized` false. -/
theorem C7_witness :
    (∀ sr ∈ (stop { initState with userText := "hi" } false 20000 20001 20002 20003
        (some (false, none)) (some (true, none))).saves, sr.finalize = false) ∧
    (stop { initState with userText := "hi" } false 20000 20001 20002 20003
        (some (false, none)) (some (true, none))).st.finalized = false :=
  (C7_two_phase_stop { initState with userText := "hi" } 20000 20001 20002 20003
    (some (false, none)) (some (true, none)) rfl).1 (by decide)

/-- C8 counterexample: a non-finalize autosave attempted while another save
is in flight is skipped but reported as a failure (`ok = false`), not
treated as success as the claim states. -/
theorem C8_counterexample :
    ((saveConversation { initState with saving := true, userText := "hi" }
        { autosave := true, reason := "autosave", close := false, finalize := false,
          confirmed := false } 20000 20001 (some (true, none))).req = none) ∧
    ¬ ((saveConversation { initState with saving := true, userText := "hi" }
        { autosave := true, reason := "autosave", close := false, finalize := false,
          confirmed := false } 20000 20001 (some (true, none))).ok = true) := by
  constructor
  · decide
  · decide

/-- C8 (amended): the snapshot-empty guard can never fire (the snapshot
always contains the separator); a non-finalize save is skipped exactly when
another save is in flight or an autosave falls inside the 10 s throttle; the
in-flight skip reports failure while the throttle skip reports success; and
neither guard ever blocks a `finalize = true` request. -/
theorem C8_amended_save_guards (st : CtrlState) (o : SaveOptions) (t d : Nat) (r : FetchResp) :
    (jsTrim (currentSnapshot st) ≠ "") ∧
    ((saveConversation st o t d r).req = none ↔
      (o.finalize = false ∧ (st.saving = true ∨
        (o.autosave = true ∧ (t : Int) - (st.lastSaveAt : Int) < 10000)))) ∧
    (st.saving = true → o.finalize = false → (saveConversation st o t d r).ok = false) ∧
    (st.saving = false → o.finalize = false → o.autosave = true →
      (t : Int) - (st.lastSaveAt : Int) < 10000 → (saveConversation st o t d r).ok = true) ∧
    (o.finalize = true → (saveConversation st o t d r).req.isSome = true) :=
  ⟨snapshot_trim_ne st, saveConversation_req_none_iff st o t d r,
    fun hs hf => saveConversation_ok_inflight hs hf,
    fun hs hf ha ht => saveConversation_ok_throttle hs hf ha ht,
    fun hf => saveConversation_finalize_emits hf⟩

/-- C8 witness: the in-flight skip at a concrete state reports failure, and a
finalize request at the same state is still emitted. -/
theorem C8_witness :
    ((saveConversation { initState with saving := true, userText := "hi" }
        { autosave := true, reason := "autosave", close := false, finalize := false,
          confirmed := false } 20000 20001 (some (true, none))).ok = false) ∧
    ((saveConversation { initState with saving := true, userText := "hi" }
        { autosave := true, reason := "x", close := true, finalize := true,
          confirmed := true } 20000 20001 (some (true, none))).req.isSome = true) :=
  ⟨(C8_amended_save_guards { initState with saving := true, userText := "hi" }
      { autosave := true, reason := "autosave", close := false, finalize := false,
        confirmed := false } 20000 20001 (some (true, none))).2.2.1 rfl rfl,
   (C8_amended_save_guards { initState with saving := true, userText := "hi" }
      { autosave := true, reason := "x", close := true, finalize := true,
        confirmed := true } 20000 20001 (some (true, none))).2.2.2.2 rfl⟩

/-- C9: the tool-call argument recovery never raises — it is a total
function of the buffer: when the best-effort slice still fails to parse the
arguments are the empty object, when it parses the parsed value is used, and
the best-effort slice is exactly the substring from the first opening brace
to the last closing brace whenever both exist in that order. -/
theorem C9_malformed_args_tolerated (buf : String) :
    (jsonParse (bestEffortSlice buf) = none → parseFnArgs buf = Json.obj []) ∧
    (∀ v, jsonParse (bestEffortSlice buf) = some v → parseFnArgs buf = v) ∧
    (∀ si ei : Nat, jsIndexOfChar buf lbrace = (si : Int) →
      jsLastIndexOfChar buf rbrace = (ei : Int) → si < ei →
      bestEffortSlice buf = jsSliceStr buf si (ei + 1)) := by
  refine ⟨?_, ?_, ?_⟩
  · intro h
    rw [parseFnArgs, h]
  · intro v h
    rw [parseFnArgs, h]
  · intro si ei hsi hei hlt
    rw [bestEffortSlice, hsi, hei]
    have hcond : ((si : Int) ≠ -1 ∧ (ei : Int) > (si : Int)) := by
      constructor
      · omega
      · exact_mod_cast hlt
    rw [if_pos hcond]
    simp [Int.toNat_ofNat]

/-- C9 witness: a buffer with an unmatched opening brace parses to the empty
object. -/
theorem C9_witness : parseFnArgs "xx\x7b\"confirmed\":true" = Json.obj [] :=
  (C9_malformed_args_tolerated "xx\x7b\"confirmed\":true").1 (by rfl)

/-! The negative-reply transition and the classifier characterization. -/

/-- An evaluated negative reply resets the confirmation machine: grant and
request cleared, fallback timer cancelled, 6 s lockout set, state
`active`. -/
theorem maybeEval_negative (st : CtrlState) (now : Nat) (text : String)
    (hne : ¬(text = ""))
    (heval : st.confirmationRequested = true ∨ isStopIntent text = true)
    (hneg : isNegativeTurn text = true) :
    ((maybeEvaluateUserConfirmation st now text).1.confirmationGranted = false) ∧
    ((maybeEvaluateUserConfirmation st now text).1.confirmationRequested = false) ∧
    ((maybeEvaluateUserConfirmation st now text).1.rejectFinalizeUntilTs = now + 6000) ∧
    ((maybeEvaluateUserConfirmation st now text).1.finalizeFallbackArmed = false) ∧
    ((maybeEvaluateUserConfirmation st now text).1.convoState = ConvoState.active) := by
  by_cases hsi : isStopIntent text = true
  · simp [maybeEvaluateUserConfirmation, hne, hsi, hneg]
  · rcases heval with hreq | hsi2
    · simp [maybeEvaluateUserConfirmation, hne, hsi, hneg, hreq]
    · exact absurd hsi2 hsi

/-- C3 counterexample: the very first user turn "no" (classified negative)
from the freshly started controller is not evaluated — no confirmation was
pending and "no" is not a stop intent — so `rejectFinalizeUntilTs` is not
set to `now + 6s` as the claim states (it stays 0). -/
theorem C3_counterexample :
    isNegativeTurn "no" = true ∧
    (runEvents initState [RtEvent.userDelta "no", RtEvent.userTurnDone 1000]).rejectFinalizeUntilTs
      ≠ 1000 + 6000 := by
  constructor
  · decide
  · decide

/-- C3 (amended): for every completed user turn whose text is classified
negative and which is actually evaluated — at turn completion either a
confirmation request was pending or the turn text itself contains a
stop-intent phrase — immediately after processing: granted is false,
requested is false, `rejectFinalizeUntilTs = now + 6s`, any armed fallback
finalize timer is cancelled, and the lifecycle state is `active`, from any
controller state. -/
theorem C3_amended_negative_reply (st : CtrlState) (now : Nat)
    (hne : ¬(st.currentUserTurn = ""))
    (heval : st.confirmationRequested = true ∨ isStopIntent st.currentUserTurn = true)
    (hneg : isNegativeTurn st.currentUserTurn = true) :
    ((step st (RtEvent.userTurnDone now)).st.confirmationGranted = false) ∧
    ((step st (RtEvent.userTurnDone now)).st.confirmationRequested = false) ∧
    ((step st (RtEvent.userTurnDone now)).st.rejectFinalizeUntilTs = now + 6000) ∧
    ((step st (RtEvent.userTurnDone now)).st.finalizeFallbackArmed = false) ∧
    ((step st (RtEvent.userTurnDone now)).st.convoState = ConvoState.active) := by
  have h := maybeEval_negative
    { st with
      userText := st.userText ++ "\n"
      turnIndex := st.turnIndex + 1
      lastUserTurnIndex := st.turnIndex + 1 } now st.currentUserTurn hne heval hneg
  rcases hE : maybeEvaluateUserConfirmation
    { st with
      userText := st.userText ++ "\n"
      turnIndex := st.turnIndex + 1
      lastUserTurnIndex := st.turnIndex + 1 } now st.currentUserTurn with ⟨stM, insM⟩
  rw [hE] at h
  simp only [step, onUserTurnDone, scheduleAutoSave, hE]
  exact h

/-- C3 witness: a pending confirmation answered "no" at a concrete state. -/
theorem C3_witness :
    (step { initState with currentUserTurn := "no", confirmationRequested := true }
      (RtEvent.userTurnDone 1000)).st.rejectFinalizeUntilTs = 1000 + 6000 :=
  (C3_amended_negative_reply
    { initState with currentUserTurn := "no", confirmationRequested := true } 1000
    (by decide) (Or.inl rfl) (by decide)).2.2.1

/-- C4 (code bug): after a stop-intent turn ("stop" at t=100) followed within
the 20 s window by the standalone affirmative reply "ok" (t=5000), with no
confirmation question ever asked and no lockout in force, the code leaves
`confirmationGranted` false (the early return in
`maybeEvaluateUserConfirmation` skips the reply because no confirmation was
requested and "ok" is not itself a stop intent), so `hasFinalizePermission`
returns false — the fallback path the claim (and the comments in the code)
describe never grants here. -/
theorem C4_fallback_denied_standalone_ok :
    isStopIntent "stop" = true ∧
    isAffirmativeTurn "ok" = true ∧
    isNegativeTurn "ok" = false ∧
    isStopIntent "ok" = false ∧
    ((runEvents initState [RtEvent.userDelta "stop", RtEvent.userTurnDone 100,
        RtEvent.userDelta "ok", RtEvent.userTurnDone 5000]).lastStopIntentTs = 100) ∧
    ((runEvents initState [RtEvent.userDelta "stop", RtEvent.userTurnDone 100,
        RtEvent.userDelta "ok", RtEvent.userTurnDone 5000]).rejectFinalizeUntilTs = 0) ∧
    ((runEvents initState [RtEvent.userDelta "stop", RtEvent.userTurnDone 100,
        RtEvent.userDelta "ok", RtEvent.userTurnDone 5000]).confirmationGranted = false) ∧
    (hasFinalizePermission (runEvents initState [RtEvent.userDelta "stop",
        RtEvent.userTurnDone 100, RtEvent.userDelta "ok", RtEvent.userTurnDone 5000])
      5000 = false) := by
  refine ⟨?_, ?_, ?_, ?_, ?_, ?_, ?_, ?_⟩ <;> decide

/-- C6: negative takes precedence — every text classified negative is not
affirmative; otherwise the classifier returns true exactly when the
normalized text with spaces removed has length at most four and equals one
of the short-affirmative tokens, or some long affirmative phrase matches the
lowercased text at word and phrase boundaries (so a short token embedded in
a longer word never matches: the whole letters-only normalization must equal
the token). -/
theorem C6_affirmative_characterization (text : String) :
    (isNegativeTurn text = true → isAffirmativeTurn text = false) ∧
    (isNegativeTurn text = false →
      (isAffirmativeTurn text = true ↔
        (specShortAffirmative text = true ∨ specLongAffirmative text = true))) := by
  constructor
  · intro hneg
    simp only [isAffirmativeTurn]
    rw [isNegativeTurn_trim, hneg]
    rfl
  · intro hneg
    simp only [isAffirmativeTurn]
    rw [isNegativeTurn_trim, hneg]
    rw [if_neg (by decide : ¬((false : Bool) = true))]
    rw [lettersOnly_trim, longScan_trim]
    simp only [specShortAffirmative]
    split
    · next hc =>
      constructor
      · intro _
        exact Or.inl hc
      · intro _
        rfl
    · next hc =>
      constructor
      · intro hl
        exact Or.inr hl
      · rintro (hshort | hlong)
        · exact absurd hshort hc
        · exact hlong

/-- C6 witness: the negative reply "no thanks" is not affirmative, and the
standalone "ok" is affirmative via the short-token branch. -/
theorem C6_witness :
    (isNegativeTurn "no thanks" = true ∧ isAffirmativeTurn "no thanks" = false) ∧
    (isNegativeTurn "ok" = false ∧ isAffirmativeTurn "ok" = true) :=
  ⟨⟨by decide, (C6_affirmative_characterization "no thanks").1 (by decide)⟩,
   ⟨by decide, ((C6_affirmative_characterization "ok").2 (by decide)).mpr
      (Or.inl (by decide))⟩⟩

end VA
